import Mathlib

/-!
Verification of the streaming pipeline of the YUI chat client.

The definitions below are a shallow embedding of two source functions:

* `ChatAPI.streamChatCompletion` (src/frontend/src/services/api.ts,
  lines 136-201): the SSE transport decoder and delta extractor.
  JavaScript strings are modelled as Lean `String`s (index arithmetic is
  per character, which agrees with the source on the ASCII inputs at
  stake); `JSON.parse` is modelled as an abstract parameter
  `parseJson : String → Option ParsedJson` (`none` = the parse throws),
  where `ParsedJson` records exactly the fields the source inspects.

* the streaming loop of `handleSendMessage` (src/frontend/src/App.tsx,
  lines 213-336) together with the store's `updateMessage`
  (src/frontend/src/store/index.ts, lines 308-333): the reasoning/content
  splitter.  The per-message mutable state (the message record in the
  store, the accumulators `fullContent`, `hasApiReasoningContent`,
  `hasFoundCloseTag`, and the loop break) is made explicit in `LoopState`
  and the body of the `for await` loop becomes `stepEvent`.
-/

namespace YUI

/-- The events yielded by `streamChatCompletion`
(the TS `ChatStreamEvent`): exactly one of `reasoning_delta`, `delta`,
`done` (with optional `finish_reason`) or `error` per yielded object. -/
inductive ChatStreamEvent where
  | reasoningDelta (text : String)
  | contentDelta (text : String)
  | doneEv (finishReason : Option String)
  | errorEv (message : String)
deriving DecidableEq, Repr

/-- The parts of `parsed.choices[0]` the source reads: `delta.reasoning_content`,
`delta.content` (absent field or absent `delta` object = `none`) and
`finish_reason` (`none` = absent or `null`). -/
structure Choice where
  reasoning_content : Option String
  content : Option String
  finish_reason : Option String
deriving DecidableEq, Repr

/-- The parts of a parsed SSE JSON payload the source reads.
`choices0 = some c` models `parsed.choices && parsed.choices[0]` being truthy;
`delta` is the top-level legacy `parsed.delta` field; `done` is the
truthiness of the top-level `parsed.done`. -/
structure ParsedJson where
  choices0 : Option Choice
  delta : Option String
  done : Bool
deriving DecidableEq, Repr

/-- api.ts lines 166-173: from `choices[0]` first yield a reasoning delta if
`delta.reasoning_content` is truthy (present and non-empty), then a content
delta if `delta.content` is truthy. -/
def choiceDeltas (c : Choice) : List ChatStreamEvent :=
  (match c.reasoning_content with
    | some rc => if rc = "" then [] else [ChatStreamEvent.reasoningDelta rc]
    | none => []) ++
  (match c.content with
    | some ct => if ct = "" then [] else [ChatStreamEvent.contentDelta ct]
    | none => [])

/-- api.ts lines 161-179: the events yielded for a payload with a truthy
`choices[0]`, paired with whether the generator `return`s
(it does exactly when `choice.finish_reason` is truthy). -/
def extractChoice (c : Choice) : List ChatStreamEvent × Bool :=
  match c.finish_reason with
  | some fr =>
      if fr = "" then (choiceDeltas c, false)
      else (choiceDeltas c ++ [ChatStreamEvent.doneEv (some fr)], true)
  | none => (choiceDeltas c, false)

/-- api.ts lines 149-189: processing of one decoded `data` payload.  Returns
the yielded events and whether the generator `return`s (ends the stream).
`!data || data === '[DONE]'` yields `{done: true}` and returns without ever
calling `JSON.parse`; an unparseable payload (`parseJson data = none`) is
logged and skipped; otherwise the three JSON shapes are tried in source
order. -/
def processData (parseJson : String → Option ParsedJson) (data : String) :
    List ChatStreamEvent × Bool :=
  if data = "" ∨ data = "[DONE]" then ([ChatStreamEvent.doneEv none], true)
  else
    match parseJson data with
    | none => ([], false)
    | some p =>
      match p.choices0 with
      | some c => extractChoice c
      | none =>
        match p.delta with
        | some d =>
            if d = "" then
              (if p.done then ([ChatStreamEvent.doneEv none], true) else ([], false))
            else ([ChatStreamEvent.contentDelta d], false)
        | none =>
            if p.done then ([ChatStreamEvent.doneEv none], true) else ([], false)

/-- JavaScript `String.prototype.trim` (leading/trailing whitespace removal),
written over the character list so that it evaluates in the kernel. -/
def jsTrim (s : String) : String :=
  String.mk (((s.data.dropWhile Char.isWhitespace).reverse.dropWhile
    Char.isWhitespace).reverse)

/-- api.ts lines 148-149: a line is recognized iff it starts with `"data: "`;
the payload is the rest of the line, trimmed (`line.slice(6).trim()`). -/
def decodeLine (line : String) : Option String :=
  if "data: ".data.isPrefixOf line.data then some (jsTrim (line.drop 6))
  else none

/-- How the transport read ends after the delivered lines: a natural
end-of-stream (`done` from the reader, api.ts line 139), an abort of the
fetch (`AbortError`, line 194), or a network error (line 197). -/
inductive TransportOutcome where
  | eof
  | aborted
  | netError (message : String)
deriving DecidableEq, Repr

/-- The event stream produced by `streamChatCompletion` for a given sequence
of complete SSE lines followed by a transport outcome.  Lines without the
`data: ` marker are skipped; a payload whose processing signals a `return`
truncates the stream (the `try` block is left, so the catch clauses for
abort/network error are not reached).  On abort the catch yields
`{done: true, finish_reason: 'stopped'}`; on a network error it yields
`{error: message || 'Unknown error occurred'}`. -/
def runStream (parseJson : String → Option ParsedJson)
    (lines : List String) (o : TransportOutcome) : List ChatStreamEvent :=
  match lines with
  | [] =>
    match o with
    | TransportOutcome.eof => []
    | TransportOutcome.aborted => [ChatStreamEvent.doneEv (some "stopped")]
    | TransportOutcome.netError m =>
        [ChatStreamEvent.errorEv (if m = "" then "Unknown error occurred" else m)]
  | line :: rest =>
    match decodeLine line with
    | none => runStream parseJson rest o
    | some data =>
      if (processData parseJson data).2 then (processData parseJson data).1
      else (processData parseJson data).1 ++ runStream parseJson rest o

/-- Whether some processed payload among the lines makes the generator
`return` (so the transport outcome is never reached). -/
def stopsEarly (parseJson : String → Option ParsedJson)
    (lines : List String) : Bool :=
  match lines with
  | [] => false
  | line :: rest =>
    match decodeLine line with
    | none => stopsEarly parseJson rest
    | some data => (processData parseJson data).2 || stopsEarly parseJson rest

/-- The literal closing delimiter of an inline reasoning block. -/
def closeTag : String := "</think>"

/-- First index (in characters) at which `pat` occurs in the list, if any. -/
def findTagAux (pat : List Char) : List Char → Option Nat
  | [] => none
  | c :: rest =>
    if pat.isPrefixOf (c :: rest) then some 0
    else (findTagAux pat rest).map (· + 1)

/-- `fullContent.match(/<\/think>/i)` of App.tsx: the index of the first
case-insensitive occurrence of `</think>`, searching the whole accumulated
string. -/
def findCloseTag (s : String) : Option Nat :=
  findTagAux closeTag.data (s.data.map Char.toLower)

/-- The two updatable fields of the assistant message in the store:
`content` and `reasoning_content` (`none` = the field is absent). -/
structure MsgState where
  content : String
  reasoning : Option String
deriving DecidableEq, Repr

/-- The per-message state of the streaming loop of `handleSendMessage`:
the store message plus the local accumulators `fullContent`,
`hasApiReasoningContent` and `hasFoundCloseTag` (App.tsx lines 213-215),
and whether the loop has been left by `break`. -/
structure LoopState where
  msg : MsgState
  fullContent : String
  hasApiReasoning : Bool
  hasFoundCloseTag : Bool
  halted : Bool
deriving DecidableEq, Repr

/-- The state at loop entry: the assistant placeholder has `content: ''`
and no `reasoning_content` (App.tsx lines 165-168), and the accumulators
start at `''`/`false`/`false`. -/
def initState : LoopState :=
  { msg := { content := "", reasoning := none },
    fullContent := "", hasApiReasoning := false,
    hasFoundCloseTag := false, halted := false }

/-- One iteration of the `for await` loop of `handleSendMessage`
(App.tsx lines 217-336) for a model whose `isReasoning` flag is
`isReasoningModel`.  Field checks are JavaScript truthiness checks, so an
empty text is skipped; `updateMessage` with a string replaces only
`content`, and with an object replaces exactly the given fields. -/
def stepEvent (isReasoningModel : Bool) (s : LoopState) (e : ChatStreamEvent) :
    LoopState :=
  if s.halted then s else
  match e with
  | ChatStreamEvent.errorEv m =>
      if m = "" then s
      else { s with msg := { s.msg with content := "Error: " ++ m },
                    halted := true }
  | ChatStreamEvent.reasoningDelta rd =>
      if rd = "" then s
      else
        { s with
          hasApiReasoning := true,
          msg := { content := s.msg.content,
                   reasoning := some (s.msg.reasoning.getD "" ++ rd) } }
  | ChatStreamEvent.contentDelta d =>
      if d = "" then s
      else if isReasoningModel && !s.hasApiReasoning then
        if !s.hasFoundCloseTag then
          match findCloseTag (s.fullContent ++ d) with
          | some i =>
              { s with
                fullContent := s.fullContent ++ d,
                hasFoundCloseTag := true,
                msg := { content :=
                           jsTrim ((s.fullContent ++ d).drop (i + closeTag.length)),
                         reasoning :=
                           some (jsTrim ((s.fullContent ++ d).take i)) } }
          | none =>
              { s with
                fullContent := s.fullContent ++ d,
                msg := { content := "", reasoning := some (s.fullContent ++ d) } }
        else
          match findCloseTag (s.fullContent ++ d) with
          | some i =>
              { s with
                fullContent := s.fullContent ++ d,
                msg := { content :=
                           jsTrim ((s.fullContent ++ d).drop (i + closeTag.length)),
                         reasoning :=
                           some (jsTrim ((s.fullContent ++ d).take i)) } }
          | none => { s with fullContent := s.fullContent ++ d }
      else
        { s with fullContent := s.fullContent ++ d,
                 msg := { s.msg with content := s.fullContent ++ d } }
  | ChatStreamEvent.doneEv _ =>
      if isReasoningModel && !s.hasApiReasoning then
        match findCloseTag s.fullContent with
        | none =>
            { s with halted := true,
                     msg := { content := s.fullContent, reasoning := none } }
        | some _ => { s with halted := true }
      else { s with halted := true }

/-- The splitter applied to a whole event sequence, from the initial
placeholder state. -/
def runSplitter (isReasoningModel : Bool) (events : List ChatStreamEvent) :
    LoopState :=
  events.foldl (stepEvent isReasoningModel) initState

/-- Concatenation of a list of delta texts, in arrival order. -/
def joinAll : List String → String
  | [] => ""
  | t :: ts => t ++ joinAll ts

/-- C1 counterexample: for the raw text `"A<think>B</think>C"` delivered as a
single ContentDelta to a reasoning-flagged model with no API reasoning, the
final state is NOT `reasoning = "B"` with `content = "AC"`: the splitter only
searches for the closing delimiter, so the opening `<think>` tag and the text
before it stay inside `reasoning`. -/
theorem C1_counterexample :
    ¬ ((runSplitter true [ChatStreamEvent.contentDelta "A<think>B</think>C",
          ChatStreamEvent.doneEv none]).msg.reasoning = some "B" ∧
       (runSplitter true [ChatStreamEvent.contentDelta "A<think>B</think>C",
          ChatStreamEvent.doneEv none]).msg.content = "AC") := by decide

/-- C1 (amended): for the raw text `"A<think>B</think>C"` delivered as a
single ContentDelta to a reasoning-flagged model with no API reasoning, the
splitter sets `reasoning` to the whole prefix strictly before the first
`</think>` (the opening `<think>` tag is never searched for and is kept
inside the reasoning segment), trimmed, and `content` to only the text after
the closing tag, trimmed: `reasoning = "A<think>B"`, `content = "C"`. -/
theorem C1_close_only_split :
    (runSplitter true [ChatStreamEvent.contentDelta "A<think>B</think>C",
        ChatStreamEvent.doneEv none]).msg.reasoning = some "A<think>B" ∧
    (runSplitter true [ChatStreamEvent.contentDelta "A<think>B</think>C",
        ChatStreamEvent.doneEv none]).msg.content = "C" ∧
    (runSplitter true [ChatStreamEvent.contentDelta "A<think>B</think>C",
        ChatStreamEvent.doneEv none]).hasFoundCloseTag = true := by decide

/-- C2: for a reasoning-flagged model with no API reasoning and
`closeTagFound` still false, an incoming ContentDelta is appended to the
accumulated raw text and `</think>` is searched case-insensitively over the
whole accumulated text; if the first occurrence is at index `i`,
`closeTagFound` becomes true, `reasoning` becomes `accumulatedRaw[0:i]`
trimmed and `content` becomes `accumulatedRaw[i+L:]` trimmed (`L` the
delimiter length).  Since the search runs over the accumulation, a delimiter
split across two deltas is detected as soon as it is complete. -/
theorem C2_close_tag_split (s : LoopState) (d : String) (i : Nat)
    (hh : s.halted = false) (ha : s.hasApiReasoning = false)
    (ht : s.hasFoundCloseTag = false) (hd : ¬ d = "")
    (hi : findCloseTag (s.fullContent ++ d) = some i) :
    (stepEvent true s (ChatStreamEvent.contentDelta d)).fullContent
      = s.fullContent ++ d ∧
    (stepEvent true s (ChatStreamEvent.contentDelta d)).hasFoundCloseTag
      = true ∧
    (stepEvent true s (ChatStreamEvent.contentDelta d)).msg.reasoning
      = some (jsTrim ((s.fullContent ++ d).take i)) ∧
    (stepEvent true s (ChatStreamEvent.contentDelta d)).msg.content
      = jsTrim ((s.fullContent ++ d).drop (i + closeTag.length)) := by
  simp [stepEvent, hh, ha, ht, hd, hi]

/-- C2 witness: the closing tag arrives split across two deltas
(`"ab</THI"` then `"NK>rest"`, in mixed case): on the second delta the
accumulated text `"ab</THINK>rest"` contains the delimiter at index 2, so it
is detected, `reasoning = "ab"` and `content = "rest"`. -/
theorem C2_witness :
    (stepEvent true (runSplitter true [ChatStreamEvent.contentDelta "ab</THI"])
        (ChatStreamEvent.contentDelta "NK>rest")).hasFoundCloseTag = true ∧
    (stepEvent true (runSplitter true [ChatStreamEvent.contentDelta "ab</THI"])
        (ChatStreamEvent.contentDelta "NK>rest")).msg.reasoning = some "ab" ∧
    (stepEvent true (runSplitter true [ChatStreamEvent.contentDelta "ab</THI"])
        (ChatStreamEvent.contentDelta "NK>rest")).msg.content = "rest" := by
  have h := C2_close_tag_split
    (runSplitter true [ChatStreamEvent.contentDelta "ab</THI"]) "NK>rest" 2
    rfl rfl rfl (by decide) (by decide)
  refine ⟨h.2.1, ?_, ?_⟩
  · rw [h.2.2.1]; decide
  · rw [h.2.2.2]; decide

/-- C3: if the model is reasoning-flagged, no ReasoningDelta was observed
(`hasApiReasoning` false) and `</think>` is absent from the accumulated raw
text when Done arrives, finalization sets `content` to the entire accumulated
raw text and clears `reasoning`; the loop then simply ends (no error path is
taken). -/
theorem C3_finalize_fallback (s : LoopState) (fr : Option String)
    (hh : s.halted = false) (ha : s.hasApiReasoning = false)
    (hn : findCloseTag s.fullContent = none) :
    (stepEvent true s (ChatStreamEvent.doneEv fr)).msg.content
      = s.fullContent ∧
    (stepEvent true s (ChatStreamEvent.doneEv fr)).msg.reasoning = none ∧
    (stepEvent true s (ChatStreamEvent.doneEv fr)).halted = true := by
  simp [stepEvent, hh, ha, hn]

/-- C3 witness: delta text `"reasoning so far"` with no `</think>`, then
Done — the final state shows everything as content and no reasoning. -/
theorem C3_witness :
    (stepEvent true
        (runSplitter true [ChatStreamEvent.contentDelta "reasoning so far"])
        (ChatStreamEvent.doneEv none)).msg.content = "reasoning so far" ∧
    (stepEvent true
        (runSplitter true [ChatStreamEvent.contentDelta "reasoning so far"])
        (ChatStreamEvent.doneEv none)).msg.reasoning = none := by
  have h := C3_finalize_fallback
    (runSplitter true [ChatStreamEvent.contentDelta "reasoning so far"]) none
    rfl rfl (by decide)
  refine ⟨?_, h.2.1⟩
  rw [h.1]; decide

/-- C7 counterexample: in the tag-scanning branch with no `</think>` match,
the update stores the accumulated raw text into `reasoning` WITHOUT trimming:
for the single delta `" x "` the stored reasoning is `" x "`, not the trimmed
`"x"`. -/
theorem C7_counterexample :
    (runSplitter true [ChatStreamEvent.contentDelta " x "]).msg.reasoning
      = some " x " ∧
    ¬ (runSplitter true [ChatStreamEvent.contentDelta " x "]).msg.reasoning
      = some (jsTrim " x ") := by decide

/-- C7 (amended): in the tag-scanning branch (reasoning-flagged model, no API
reasoning, close tag not yet found), when the case-insensitive search for
`</think>` over the accumulated raw text finds no match, the update sets
`reasoning` to the accumulated raw text unmodified (no trimming in this
branch — only the tag-found split trims) and `content` to the empty
string. -/
theorem C7_noclose_tentative (s : LoopState) (d : String)
    (hh : s.halted = false) (ha : s.hasApiReasoning = false)
    (ht : s.hasFoundCloseTag = false) (hd : ¬ d = "")
    (hn : findCloseTag (s.fullContent ++ d) = none) :
    (stepEvent true s (ChatStreamEvent.contentDelta d)).msg.content = "" ∧
    (stepEvent true s (ChatStreamEvent.contentDelta d)).msg.reasoning
      = some (s.fullContent ++ d) ∧
    (stepEvent true s (ChatStreamEvent.contentDelta d)).fullContent
      = s.fullContent ++ d := by
  simp [stepEvent, hh, ha, ht, hd, hn]

/-- C7 witness: with accumulated text empty and delta `" thinking "` (no
closing tag), the message becomes `content = ""`,
`reasoning = " thinking "` (untrimmed). -/
theorem C7_witness :
    (stepEvent true initState
        (ChatStreamEvent.contentDelta " thinking ")).msg.content = "" ∧
    (stepEvent true initState
        (ChatStreamEvent.contentDelta " thinking ")).msg.reasoning
      = some " thinking " := by
  have h := C7_noclose_tentative initState " thinking "
    rfl rfl rfl (by decide) (by decide)
  refine ⟨h.1, ?_⟩
  rw [h.2.1]; decide

/-- For a model without the reasoning flag, a ContentDelta only appends to the
accumulation and mirrors it into `content`; every other loop field is kept. -/
theorem stepEvent_plain (s : LoopState) (t : String) (hh : s.halted = false) :
    stepEvent false s (ChatStreamEvent.contentDelta t)
      = if t = "" then s
        else { s with fullContent := s.fullContent ++ t,
                      msg := { s.msg with content := s.fullContent ++ t } } := by
  by_cases ht : t = "" <;> simp [stepEvent, hh, ht]

/-- Folding ContentDeltas through the splitter for a non-reasoning model,
from any live state whose `content` mirrors the accumulation: the result
still mirrors, the accumulation grows by the concatenation of the texts, and
`reasoning` and `hasFoundCloseTag` are untouched. -/
theorem foldPlain (ts : List String) : ∀ s : LoopState, s.halted = false →
    s.msg.content = s.fullContent →
    ((ts.map ChatStreamEvent.contentDelta).foldl (stepEvent false) s).halted
        = false ∧
    ((ts.map ChatStreamEvent.contentDelta).foldl (stepEvent false) s).msg.content
        = ((ts.map ChatStreamEvent.contentDelta).foldl (stepEvent false)
            s).fullContent ∧
    ((ts.map ChatStreamEvent.contentDelta).foldl (stepEvent false)
        s).fullContent = s.fullContent ++ joinAll ts ∧
    ((ts.map ChatStreamEvent.contentDelta).foldl (stepEvent false)
        s).msg.reasoning = s.msg.reasoning ∧
    ((ts.map ChatStreamEvent.contentDelta).foldl (stepEvent false)
        s).hasFoundCloseTag = s.hasFoundCloseTag := by
  induction ts with
  | nil =>
    intro s hh hc
    exact ⟨hh, hc, (String.append_empty s.fullContent).symm, rfl, rfl⟩
  | cons t ts ih =>
    intro s hh hc
    rw [List.map_cons, List.foldl_cons, stepEvent_plain s t hh]
    by_cases ht : t = ""
    · rw [if_pos ht]
      subst ht
      have h := ih s hh hc
      refine ⟨h.1, h.2.1, ?_, h.2.2.2.1, h.2.2.2.2⟩
      rw [h.2.2.1]
      simp [joinAll, String.empty_append]
    · rw [if_neg ht]
      have h := ih { s with fullContent := s.fullContent ++ t,
                            msg := { s.msg with content := s.fullContent ++ t } }
        hh rfl
      refine ⟨h.1, h.2.1, ?_, h.2.2.2.1, h.2.2.2.2⟩
      rw [h.2.2.1]
      simp [joinAll, String.append_assoc]

/-- Finalization for a model without the reasoning flag only breaks the loop:
the stored message is untouched. -/
theorem stepEvent_done_plain (s : LoopState) (fr : Option String)
    (hh : s.halted = false) :
    (stepEvent false s (ChatStreamEvent.doneEv fr)).msg = s.msg := by
  simp [stepEvent, hh]

/-- C4: for a model not flagged as a reasoning model (and with no
ReasoningDelta in the sequence), after processing any sequence of
ContentDeltas the message content equals the concatenation of all the delta
texts in arrival order, the reasoning segment is still absent, and the
tag-scanning flag was never set — this holds for every `ts`, hence in
particular for every prefix of a delta sequence, i.e. after each update. -/
theorem C4_plain_accumulation (ts : List String) :
    (runSplitter false (ts.map ChatStreamEvent.contentDelta)).msg.content
        = joinAll ts ∧
    (runSplitter false (ts.map ChatStreamEvent.contentDelta)).msg.reasoning
        = none ∧
    (runSplitter false (ts.map ChatStreamEvent.contentDelta)).hasFoundCloseTag
        = false ∧
    (runSplitter false
        (ts.map ChatStreamEvent.contentDelta ++ [ChatStreamEvent.doneEv none])
      ).msg.content = joinAll ts := by
  unfold runSplitter
  have h := foldPlain ts initState rfl rfl
  have hfc : ((ts.map ChatStreamEvent.contentDelta).foldl (stepEvent false)
      initState).fullContent = joinAll ts := by
    rw [h.2.2.1, show initState.fullContent = "" from rfl, String.empty_append]
  have hc : ((ts.map ChatStreamEvent.contentDelta).foldl (stepEvent false)
      initState).msg.content = joinAll ts := by
    rw [h.2.1, hfc]
  refine ⟨hc, h.2.2.2.1, h.2.2.2.2, ?_⟩
  rw [List.foldl_append, List.foldl_cons, List.foldl_nil,
    stepEvent_done_plain _ none h.1]
  exact hc

/-- Every step of the splitter preserves `hasApiReasoning = true`: once a
ReasoningDelta has been observed the flag is never reset. -/
theorem stepEvent_hasApi_mono (m : Bool) (s : LoopState)
    (h : s.hasApiReasoning = true) (e : ChatStreamEvent) :
    (stepEvent m s e).hasApiReasoning = true := by
  cases e <;> by_cases hh : s.halted <;>
    simp [stepEvent, h, hh] <;> split <;> simp [h]

/-- C5: once `hasApiReasoning` is true for a message it stays true through
any further event sequence: the tag-scanning path never executes again, so a
ContentDelta — whatever its text, even one containing `</think>` — leaves
`reasoning` and `hasFoundCloseTag` untouched and replaces `content` with the
accumulation of ContentDelta texts, while a ReasoningDelta appends its text
to `reasoning` and leaves `content` untouched. -/
theorem C5_api_reasoning_sticky (m : Bool) (s : LoopState)
    (h : s.hasApiReasoning = true) :
    (∀ evs : List ChatStreamEvent,
      ((evs.foldl (stepEvent m) s).hasApiReasoning = true)) ∧
    (∀ d : String, s.halted = false → ¬ d = "" →
      (stepEvent m s (ChatStreamEvent.contentDelta d)).msg.reasoning
          = s.msg.reasoning ∧
      (stepEvent m s (ChatStreamEvent.contentDelta d)).msg.content
          = s.fullContent ++ d ∧
      (stepEvent m s (ChatStreamEvent.contentDelta d)).hasFoundCloseTag
          = s.hasFoundCloseTag) ∧
    (∀ rd : String, s.halted = false → ¬ rd = "" →
      (stepEvent m s (ChatStreamEvent.reasoningDelta rd)).msg.reasoning
          = some (s.msg.reasoning.getD "" ++ rd) ∧
      (stepEvent m s (ChatStreamEvent.reasoningDelta rd)).msg.content
          = s.msg.content) := by
  refine ⟨?_, ?_, ?_⟩
  · intro evs
    induction evs generalizing s with
    | nil => simpa using h
    | cons e evs ih =>
      rw [List.foldl_cons]
      exact ih _ (stepEvent_hasApi_mono m s h e)
  · intro d hh hd
    simp [stepEvent, h, hh, hd]
  · intro rd hh hrd
    simp [stepEvent, hh, hrd]

/-- C5 witness: after the ReasoningDelta `"step1"`, a ContentDelta containing
a literal `</think>` is passed straight to `content` and the reasoning stays
`"step1"`; the flag survives the whole remaining sequence. -/
theorem C5_witness :
    (([ChatStreamEvent.contentDelta "x</think>y"]).foldl (stepEvent true)
        (runSplitter true [ChatStreamEvent.reasoningDelta "step1"])
      ).hasApiReasoning = true ∧
    (stepEvent true (runSplitter true [ChatStreamEvent.reasoningDelta "step1"])
        (ChatStreamEvent.contentDelta "x</think>y")).msg.reasoning
      = some "step1" ∧
    (stepEvent true (runSplitter true [ChatStreamEvent.reasoningDelta "step1"])
        (ChatStreamEvent.contentDelta "x</think>y")).msg.content
      = "x</think>y" := by
  have h := C5_api_reasoning_sticky true
    (runSplitter true [ChatStreamEvent.reasoningDelta "step1"]) rfl
  have h2 := h.2.1 "x</think>y" rfl (by decide)
  refine ⟨h.1 [ChatStreamEvent.contentDelta "x</think>y"], ?_, ?_⟩
  · rw [h2.1]; decide
  · rw [h2.2.1]; decide

/-- Unfolding of `runStream` on a line without the `data: ` marker: the line
is skipped. -/
theorem runStream_skip (parseJson : String → Option ParsedJson)
    (line : String) (rest : List String) (o : TransportOutcome)
    (h : decodeLine line = none) :
    runStream parseJson (line :: rest) o = runStream parseJson rest o := by
  show (match decodeLine line with
    | none => runStream parseJson rest o
    | some data =>
      if (processData parseJson data).2 then (processData parseJson data).1
      else (processData parseJson data).1 ++ runStream parseJson rest o)
    = runStream parseJson rest o
  rw [h]

/-- Unfolding of `runStream` on a recognized data line. -/
theorem runStream_data (parseJson : String → Option ParsedJson)
    (line : String) (rest : List String) (o : TransportOutcome) (data : String)
    (h : decodeLine line = some data) :
    runStream parseJson (line :: rest) o
      = if (processData parseJson data).2 then (processData parseJson data).1
        else (processData parseJson data).1 ++ runStream parseJson rest o := by
  show (match decodeLine line with
    | none => runStream parseJson rest o
    | some d =>
      if (processData parseJson d).2 then (processData parseJson d).1
      else (processData parseJson d).1 ++ runStream parseJson rest o)
    = _
  rw [h]

/-- Unfolding of `stopsEarly` on a line without the `data: ` marker. -/
theorem stopsEarly_skip (parseJson : String → Option ParsedJson)
    (line : String) (rest : List String) (h : decodeLine line = none) :
    stopsEarly parseJson (line :: rest) = stopsEarly parseJson rest := by
  show (match decodeLine line with
    | none => stopsEarly parseJson rest
    | some data => (processData parseJson data).2 || stopsEarly parseJson rest)
    = stopsEarly parseJson rest
  rw [h]

/-- Unfolding of `stopsEarly` on a recognized data line. -/
theorem stopsEarly_data (parseJson : String → Option ParsedJson)
    (line : String) (rest : List String) (data : String)
    (h : decodeLine line = some data) :
    stopsEarly parseJson (line :: rest)
      = ((processData parseJson data).2 || stopsEarly parseJson rest) := by
  show (match decodeLine line with
    | none => stopsEarly parseJson rest
    | some d => (processData parseJson d).2 || stopsEarly parseJson rest)
    = _
  rw [h]

/-- C6 counterexample: a parsed payload whose `choices[0].finish_reason` is
the empty string — present and non-null — makes the extractor emit no Done at
all and keep the stream open, because the source guards the emission with a
JavaScript truthiness check, not a null check. -/
theorem C6_counterexample :
    processData (fun _ => some (⟨some ⟨none, none, some ""⟩, none, false⟩ :
      ParsedJson)) "x" = ([], false) := by decide

/-- C6 (amended): the extractor ends the stream exactly at the first
end-of-stream signal: a payload equal to the literal terminator `[DONE]`
yields `Done` with no finish reason and stops, for every possible JSON-parse
behaviour (so no parsing is attempted); a parsed payload whose
`choices[0].finish_reason` is present and truthy (non-null AND non-empty)
yields its deltas followed by `Done` carrying that finish reason and stops;
and whenever processing a payload stops, the events of that payload are the
last ones of the whole stream — later lines are never processed. -/
theorem C6_stream_end (parseJson : String → Option ParsedJson) :
    processData parseJson "[DONE]" = ([ChatStreamEvent.doneEv none], true) ∧
    (∀ data p c fr, ¬ data = "" → ¬ data = "[DONE]" →
      parseJson data = some p → p.choices0 = some c →
      c.finish_reason = some fr → ¬ fr = "" →
      processData parseJson data
        = (choiceDeltas c ++ [ChatStreamEvent.doneEv (some fr)], true)) ∧
    (∀ line rest o data, decodeLine line = some data →
      (processData parseJson data).2 = true →
      runStream parseJson (line :: rest) o
        = (processData parseJson data).1) := by
  refine ⟨?_, ?_, ?_⟩
  · simp [processData]
  · intro data p c fr h1 h2 hp hc hf hfr
    simp [processData, h1, h2, hp, hc, extractChoice, hf, hfr]
  · intro line rest o data hdl hstop
    rw [runStream_data parseJson line rest o data hdl, hstop]
    simp

/-- C6 witness: the terminator line ends the stream with
`Done{finishReason: undefined}` under an arbitrary parse function, and a
payload parsed with `finish_reason = "stop"` yields exactly
`[Done{finishReason: "stop"}]` and ends the stream before any later line. -/
theorem C6_witness :
    processData (fun _ => none) "[DONE]"
      = ([ChatStreamEvent.doneEv none], true) ∧
    processData (fun _ => some (⟨some ⟨none, none, some "stop"⟩, none, false⟩ :
        ParsedJson)) "x"
      = (choiceDeltas ⟨none, none, some "stop"⟩
          ++ [ChatStreamEvent.doneEv (some "stop")], true) ∧
    runStream (fun _ => some (⟨some ⟨none, none, some "stop"⟩, none, false⟩ :
        ParsedJson)) ["data: x", "data: ignored"] TransportOutcome.eof
      = (processData (fun _ => some (⟨some ⟨none, none, some "stop"⟩, none,
          false⟩ : ParsedJson)) "x").1 := by
  refine ⟨(C6_stream_end (fun _ => none)).1, ?_, ?_⟩
  · exact (C6_stream_end _).2.1 "x" _ _ "stop" (by decide) (by decide)
      rfl rfl rfl (by decide)
  · exact (C6_stream_end _).2.2 "data: x" ["data: ignored"]
      TransportOutcome.eof "x" (by decide) (by decide)

/-- The extractor never yields an error event from `choices[0]` deltas. -/
theorem choiceDeltas_no_error (c : Choice) (m : String) :
    ChatStreamEvent.errorEv m ∉ choiceDeltas c := by
  rcases c with ⟨rc, ct, fr⟩
  intro hmem
  simp only [choiceDeltas, List.mem_append] at hmem
  rcases hmem with h | h
  · cases rc with
    | none => simp at h
    | some a => by_cases ha : a = "" <;> simp [ha] at h
  · cases ct with
    | none => simp at h
    | some b => by_cases hb : b = "" <;> simp [hb] at h

/-- No event produced by `processData` is an error event: errors only come
from the transport catch clause. -/
theorem processData_no_error (parseJson : String → Option ParsedJson)
    (data : String) (m : String) :
    ChatStreamEvent.errorEv m ∉ (processData parseJson data).1 := by
  unfold processData
  split
  · simp
  · cases hp : parseJson data with
    | none => simp
    | some p =>
      rcases p with ⟨c0, pd, pdone⟩
      cases c0 with
      | some c =>
        show ChatStreamEvent.errorEv m ∉ (extractChoice c).1
        unfold extractChoice
        cases hf : c.finish_reason with
        | some fr =>
          by_cases hfr : fr = ""
          · simpa [hfr] using choiceDeltas_no_error c m
          · simp only [hfr, if_neg hfr]
            intro hmem
            rcases List.mem_append.mp hmem with h | h
            · exact choiceDeltas_no_error c m h
            · simp at h
        | none => exact choiceDeltas_no_error c m
      | none =>
        cases pd with
        | some d =>
          by_cases hdd : d = ""
          · cases pdone <;> simp [hdd]
          · simp [hdd]
        | none => cases pdone <;> simp

/-- An aborted transport never surfaces an error event: the catch clause for
`AbortError` yields a Done, not an Error. -/
theorem runStream_aborted_no_error (parseJson : String → Option ParsedJson)
    (lines : List String) (m : String) :
    ChatStreamEvent.errorEv m ∉ runStream parseJson lines
      TransportOutcome.aborted := by
  induction lines with
  | nil => simp [runStream]
  | cons line rest ih =>
    cases hdl : decodeLine line with
    | none =>
      rw [runStream_skip parseJson line rest TransportOutcome.aborted hdl]
      exact ih
    | some data =>
      rw [runStream_data parseJson line rest TransportOutcome.aborted data hdl]
      split
      · exact processData_no_error parseJson data m
      · rw [List.mem_append]
        rintro (h | h)
        · exact processData_no_error parseJson data m h
        · exact ih h

/-- If no payload of the delivered lines ends the stream, aborting the
transport appends exactly one `Done{finishReason: "stopped"}` to the events a
natural end-of-stream would have produced. -/
theorem runStream_aborted_eq (parseJson : String → Option ParsedJson)
    (lines : List String) (h : stopsEarly parseJson lines = false) :
    runStream parseJson lines TransportOutcome.aborted
      = runStream parseJson lines TransportOutcome.eof
        ++ [ChatStreamEvent.doneEv (some "stopped")] := by
  induction lines with
  | nil => simp [runStream]
  | cons line rest ih =>
    cases hdl : decodeLine line with
    | none =>
      rw [stopsEarly_skip parseJson line rest hdl] at h
      rw [runStream_skip parseJson line rest TransportOutcome.aborted hdl,
        runStream_skip parseJson line rest TransportOutcome.eof hdl]
      exact ih h
    | some data =>
      rw [stopsEarly_data parseJson line rest data hdl] at h
      have h2 : (processData parseJson data).2 = false :=
        (Bool.or_eq_false_iff.mp h).1
      have h3 : stopsEarly parseJson rest = false :=
        (Bool.or_eq_false_iff.mp h).2
      rw [runStream_data parseJson line rest TransportOutcome.aborted data hdl,
        runStream_data parseJson line rest TransportOutcome.eof data hdl,
        h2]
      simp only [Bool.false_eq_true, if_false]
      rw [ih h3, List.append_assoc]

/-- C8: when the caller aborts the transport read mid-stream, the pipeline
yields `Done{finishReason: "stopped"}` after the deltas already produced —
never an Error event — and the finalization step for the message leaves the
accumulated content and reasoning exactly as they were (for a non-reasoning
model, and likewise once API reasoning is in use): the partial message is
kept, not discarded. -/
theorem C8_abort_finalize (parseJson : String → Option ParsedJson)
    (lines : List String) (h : stopsEarly parseJson lines = false) :
    runStream parseJson lines TransportOutcome.aborted
      = runStream parseJson lines TransportOutcome.eof
        ++ [ChatStreamEvent.doneEv (some "stopped")] ∧
    (∀ m, ChatStreamEvent.errorEv m ∉ runStream parseJson lines
      TransportOutcome.aborted) ∧
    (∀ s : LoopState, s.halted = false →
      (stepEvent false s (ChatStreamEvent.doneEv (some "stopped"))).msg
        = s.msg) ∧
    (∀ m : Bool, ∀ s : LoopState, s.halted = false → s.hasApiReasoning = true →
      (stepEvent m s (ChatStreamEvent.doneEv (some "stopped"))).msg
        = s.msg) := by
  refine ⟨runStream_aborted_eq parseJson lines h,
    fun m => runStream_aborted_no_error parseJson lines m,
    fun s hh => stepEvent_done_plain s (some "stopped") hh,
    fun m s hh ha => ?_⟩
  simp [stepEvent, hh, ha]

/-- C8 witness: a stream delivering the partial content `"Hello wor"` and
then aborted yields the content delta followed by `Done{"stopped"}`, and the
splitter's final state keeps `content = "Hello wor"` unchanged. -/
theorem C8_witness :
    runStream (fun _ => some (⟨some ⟨none, some "Hello wor", none⟩, none,
        false⟩ : ParsedJson)) ["data: x"] TransportOutcome.aborted
      = runStream (fun _ => some (⟨some ⟨none, some "Hello wor", none⟩, none,
          false⟩ : ParsedJson)) ["data: x"] TransportOutcome.eof
        ++ [ChatStreamEvent.doneEv (some "stopped")] ∧
    (runSplitter false
        (runStream (fun _ => some (⟨some ⟨none, some "Hello wor", none⟩, none,
          false⟩ : ParsedJson)) ["data: x"] TransportOutcome.aborted)
      ).msg.content = "Hello wor" := by
  have h := C8_abort_finalize
    (fun _ => some (⟨some ⟨none, some "Hello wor", none⟩, none, false⟩ :
      ParsedJson)) ["data: x"] (by decide)
  have h2 := h.2.2.1
    (runSplitter false [ChatStreamEvent.contentDelta "Hello wor"]) rfl
  refine ⟨h.1, ?_⟩
  calc (runSplitter false
      (runStream (fun _ => some (⟨some ⟨none, some "Hello wor", none⟩, none,
        false⟩ : ParsedJson)) ["data: x"] TransportOutcome.aborted)
    ).msg.content
      = (stepEvent false
          (runSplitter false [ChatStreamEvent.contentDelta "Hello wor"])
          (ChatStreamEvent.doneEv (some "stopped"))).msg.content := rfl
    _ = (runSplitter false
          [ChatStreamEvent.contentDelta "Hello wor"]).msg.content := by
          rw [h2]
    _ = "Hello wor" := by decide

/-- C9: an SSE data payload that is not the terminator and fails JSON parsing
produces no delta and does not end the stream; processing continues with the
later lines exactly as if the malformed line were absent, so the accumulated
splitter state is unaffected by it. -/
theorem C9_malformed_skipped (parseJson : String → Option ParsedJson)
    (data : String) (h1 : ¬ data = "") (h2 : ¬ data = "[DONE]")
    (h3 : parseJson data = none) :
    processData parseJson data = ([], false) ∧
    (∀ line rest o, decodeLine line = some data →
      runStream parseJson (line :: rest) o = runStream parseJson rest o) := by
  have hp : processData parseJson data = ([], false) := by
    simp [processData, h1, h2, h3]
  refine ⟨hp, ?_⟩
  intro line rest o hdl
  rw [runStream_data parseJson line rest o data hdl, hp]
  simp

/-- C9 witness: with a parse function that always fails, the line
`"data: notjson"` yields nothing and the rest of the stream is processed
unchanged. -/
theorem C9_witness :
    processData (fun _ => none) "notjson" = ([], false) ∧
    runStream (fun _ => none) ["data: notjson", "data: [DONE]"]
        TransportOutcome.eof
      = runStream (fun _ => none) ["data: [DONE]"] TransportOutcome.eof := by
  have h := C9_malformed_skipped (fun _ => none) "notjson"
    (by decide) (by decide) rfl
  exact ⟨h.1, h.2 "data: notjson" ["data: [DONE]"] TransportOutcome.eof
    (by decide)⟩

/-- C10: a line that starts with the `data: ` marker but whose payload is
empty after trimming is treated exactly like the literal `[DONE]` terminator:
the pipeline yields `Done` with no finish reason and the generator returns,
so no later line of the stream is processed. -/
theorem C10_empty_data_terminates (parseJson : String → Option ParsedJson)
    (line : String) (h : decodeLine line = some "") :
    (∀ rest o, runStream parseJson (line :: rest) o
      = [ChatStreamEvent.doneEv none]) ∧
    processData parseJson "" = processData parseJson "[DONE]" := by
  have hp : processData parseJson ""
      = ([ChatStreamEvent.doneEv none], true) := by
    simp [processData]
  have hq : processData parseJson "[DONE]"
      = ([ChatStreamEvent.doneEv none], true) := by
    simp [processData]
  refine ⟨?_, hp.trans hq.symm⟩
  intro rest o
  rw [runStream_data parseJson line rest o "" h, hp]
  simp

/-- C10 witness: the frame `"data:   "` (marker followed only by whitespace)
terminates the stream at once; the following `"data: later"` line is never
processed. -/
theorem C10_witness :
    runStream (fun _ => none) ["data:   ", "data: later"] TransportOutcome.eof
      = [ChatStreamEvent.doneEv none] := by
  exact (C10_empty_data_terminates (fun _ => none) "data:   " (by decide)).1
    ["data: later"] TransportOutcome.eof

end YUI
